import Mathlib

/-!
Verification development for the `gocs` CrowdStrike API client library.

We shallowly embed the parameter-marshalling layer, the timestamp
normalizer, the transport `do` pipeline and the client constructors of
the Go source (`common.go`, `intel.go`, `cs.go`) as pure Lean functions,
and prove the spec's claims about them.

Modelling conventions:
* Go's `url.Values` (a `map[string][]string`) is modelled as the function
  type `Params := String → List String`; `Add` appends to the per-key
  value list.  Key iteration order of a Go map is unspecified, per-key
  value order is what the spec's claims speak about.
* Go's `time.Time` is modelled as a UTC instant: whole seconds since the
  Unix epoch plus a nanosecond remainder.  That is sufficient for the
  operations the source uses (`Unix()`, `IsZero()`, `Format(RFC3339)`
  on UTC times).  Go's zero `time.Time` is 0001-01-01T00:00:00 UTC.
* Go `float64` epoch fields are modelled as rationals (every finite
  float64 is a rational); the conversion `int64(f)` discards the
  fractional part, i.e. truncates toward zero, which `ratTrunc` mirrors
  for in-range values.
* Mutating Go helpers (`params.Add`, request-struct mutation inside the
  `...ToParams` functions) become functions returning the new value.
-/

/-- Model of Go's `url.Values` multi-map: each key holds an ordered list
of values.  `map[string][]string` has no key order, so a function is the
faithful model; per-key value order is preserved. -/
def Params : Type := String → List String

/-- The empty `url.Values{}`. -/
def Params.empty : Params := fun _ => []

/-- `params.Add(key, value)`: appends `value` to the list stored at `key`. -/
def Params.add (p : Params) (key value : String) : Params :=
  fun k => if k = key then p key ++ [value] else p k

/-- Model of Go's `time.Time` restricted to what the source uses: a UTC
instant, split into whole seconds since the Unix epoch (`unixSec`, the
value `Time.Unix()` returns) and the sub-second nanoseconds. -/
structure GoTime where
  unixSec : Int
  nsec    : Nat
  deriving DecidableEq, Repr

/-- Unix seconds of Go's zero time 0001-01-01T00:00:00 UTC. -/
def goZeroUnixSec : Int := -62135596800

/-- The zero `time.Time`. -/
def GoTime.zero : GoTime := ⟨goZeroUnixSec, 0⟩

/-- `t.IsZero()`: true exactly on the zero time. -/
def GoTime.isZero (t : GoTime) : Bool := t = GoTime.zero

/-- Left-pad the decimal representation of `n` with zeros to `w` digits. -/
def padNat (w : Nat) (n : Nat) : String :=
  let s := toString n
  String.mk (List.replicate (w - s.length) '0') ++ s

/-- Gregorian civil date (year, month, day) of a day count relative to
1970-01-01 (Howard Hinnant's `civil_from_days`, the standard proleptic
Gregorian conversion Go's `time` package agrees with). -/
def civilFromDays (z : Int) : Int × Nat × Nat :=
  let z := z + 719468
  let era : Int := Int.fdiv z 146097
  let doe : Nat := (z - era * 146097).toNat
  let yoe : Nat := (doe - doe / 1460 + doe / 36524 - doe / 146096) / 365
  let y : Int := (yoe : Int) + era * 400
  let doy : Nat := doe - (365 * yoe + yoe / 4 - yoe / 100)
  let mp : Nat := (5 * doy + 2) / 153
  let d : Nat := doy - (153 * mp + 2) / 5 + 1
  let m : Nat := if mp < 10 then mp + 3 else mp - 9
  (if m ≤ 2 then y + 1 else y, m, d)

/-- `t.Format(time.RFC3339)` for a UTC time: `YYYY-MM-DDThh:mm:ssZ`
(the RFC3339 layout has second precision and prints `Z` for UTC). -/
def GoTime.formatRFC3339 (t : GoTime) : String :=
  let days : Int := Int.fdiv t.unixSec 86400
  let sod : Nat := (t.unixSec - days * 86400).toNat
  let ymd := civilFromDays days
  padNat 4 ymd.1.toNat ++ "-" ++ padNat 2 ymd.2.1 ++ "-" ++ padNat 2 ymd.2.2 ++
    "T" ++ padNat 2 (sod / 3600) ++ ":" ++ padNat 2 (sod / 60 % 60) ++ ":" ++
    padNat 2 (sod % 60) ++ "Z"

/-- `SortField` (common.go). -/
structure SortField where
  name      : String
  ascending : Bool
  deriving DecidableEq, Repr

/-- `addString` (common.go): add the value under the key only when the
value is non-empty. -/
def addString (name val : String) (params : Params) : Params :=
  if val = "" then params else params.add name val

/-- `addTime` (common.go, intelligence family): add the time as decimal
Unix-epoch seconds, only when the pointer is non-nil and the time is
non-zero. -/
def addTime (name : String) (t : Option GoTime) (params : Params) : Params :=
  match t with
  | none => params
  | some t => if t.isZero then params else params.add name (toString t.unixSec)

/-- `addStringArr` (common.go): `addString` every element in order. -/
def addStringArr (name : String) (val : List String) (params : Params) : Params :=
  match val with
  | [] => params
  | v :: rest => addStringArr name rest (addString name v params)

/-- The string a sort field is encoded to by `addSortFields`. -/
def encodeSortField (s : SortField) : String :=
  s.name ++ "." ++ (if s.ascending then "asc" else "desc")

/-- `addSortFields` (common.go): encode each sort field as
`name.asc`/`name.desc` under the key, in order. -/
def addSortFields (name : String) (sortFields : List SortField) (params : Params) : Params :=
  match sortFields with
  | [] => params
  | s :: rest => addSortFields name rest (addString name (encodeSortField s) params)

/-- `addInt` (common.go): `strconv.Itoa(val)` is never empty, so the key
is always added. -/
def addInt (name : String) (val : Int) (params : Params) : Params :=
  addString name (toString val) params

/-- `addRFCTime` (cs.go, host family): add the RFC3339 text whenever the
pointer is non-nil — unlike `addTime` there is no `IsZero` guard. -/
def addRFCTime (name : String) (t : Option GoTime) (params : Params) : Params :=
  match t with
  | none => params
  | some t => params.add name t.formatRFC3339

/-- The "basic fields" sentinel `BasicFields` (intel.go). -/
def BasicFields : String := "__basic__"

/-- `DefaultURL` (intel.go): the intelligence-family endpoint. -/
def DefaultURL : String := "https://intelapi.crowdstrike.com/"

/-- `DefaultURLHost` (cs.go): the host-family endpoint. -/
def DefaultURLHost : String := "https://falconapi.crowdstrike.com/"

/-- `ActorRequest` (intel.go; `Paging` is embedded, contributing
`Offset`/`Limit`).  Nil-able `*time.Time` fields become `Option GoTime`. -/
structure ActorRequest where
  q                    : String := ""
  name                 : String := ""
  description          : String := ""
  minLastModifiedDate  : Option GoTime := none
  maxLastModifieldDate : Option GoTime := none
  minLastActivityDate  : Option GoTime := none
  maxLastActivityDate  : Option GoTime := none
  origins              : List String := []
  targetCountries      : List String := []
  targetIndustries     : List String := []
  motivations          : List String := []
  fields               : List String := []
  sortFields           : List SortField := []
  offset               : Int := 0
  limit                : Int := 0
  deriving DecidableEq, Repr

/-- `actorRequestToParams` (intel.go 198-223).  The Go function mutates
`req` (Limit and Fields defaults) before encoding; the model returns the
parameter map together with the mutated request.  Note the source adds
the `motivations` array twice (intel.go 216-217). -/
def actorRequestToParams (req : ActorRequest) : Params × ActorRequest :=
  let req := if req.limit = 0 then { req with limit := 10 } else req
  let req := if req.fields = [] then { req with fields := req.fields ++ [BasicFields] } else req
  let params := Params.empty
  let params := addString "q" req.q params
  let params := addString "name" req.name params
  let params := addString "description" req.description params
  let params := addTime "min_last_modified_date" req.minLastModifiedDate params
  let params := addTime "max_last_modified_date" req.maxLastModifieldDate params
  let params := addTime "min_last_activity_date" req.minLastActivityDate params
  let params := addTime "max_last_activity_date" req.maxLastActivityDate params
  let params := addStringArr "origins" req.origins params
  let params := addStringArr "target_countries" req.targetCountries params
  let params := addStringArr "target_industries" req.targetIndustries params
  let params := addStringArr "motivations" req.motivations params
  let params := addStringArr "motivations" req.motivations params
  let params := addStringArr "fields" req.fields params
  let params := addSortFields "sort" req.sortFields params
  let params := addInt "offset" req.offset params
  let params := addInt "limit" req.limit params
  (params, req)

/-- `IndicatorRequest` (intel.go): `Sort` is a nil-able pointer. -/
structure IndicatorRequest where
  parameter : String := ""
  filter    : String := ""
  value     : String := ""
  sort      : Option SortField := none
  page      : Int := 0
  perPage   : Int := 0
  deriving DecidableEq, Repr

/-- `indicatorRequestToParams` (intel.go 254-273).  Starts from the map
literal `url.Values{req.Filter: {req.Value}}`, encodes a non-nil sort as
two separate `sort`/`order` parameters, defaults Page/PerPage to 1/10
when zero (mutating `req`), and always adds `page`/`perPage`. -/
def indicatorRequestToParams (req : IndicatorRequest) : Params × IndicatorRequest :=
  let params : Params := fun k => if k = req.filter then [req.value] else []
  let params :=
    match req.sort with
    | none => params
    | some s =>
        let order := if s.ascending then "asc" else "desc"
        (params.add "sort" s.name).add "order" order
  let req := if req.page = 0 then { req with page := 1 } else req
  let req := if req.perPage = 0 then { req with perPage := 10 } else req
  let params := params.add "page" (toString req.page)
  let params := params.add "perPage" (toString req.perPage)
  (params, req)

/-- `SearchIOCsRequest` (cs.go host part; `Paging` embedded). -/
structure SearchIOCsRequest where
  types                   : List String := []
  values                  : List String := []
  policies                : List String := []
  shareLevels             : List String := []
  sources                 : List String := []
  fromExpirationTimestamp : Option GoTime := none
  toExpirationTimestamp   : Option GoTime := none
  sort                    : Option SortField := none
  offset                  : Int := 0
  limit                   : Int := 0
  deriving DecidableEq, Repr

/-- `searchRequestToParams` (cs.go 698-717).  No defaults are applied:
zero Limit/Offset are simply omitted; times use the RFC3339 helper. -/
def searchRequestToParams (req : SearchIOCsRequest) : Params :=
  let params := Params.empty
  let params := addStringArr "types" req.types params
  let params := addStringArr "values" req.values params
  let params := addStringArr "policies" req.policies params
  let params := addStringArr "share_levels" req.shareLevels params
  let params := addStringArr "sources" req.sources params
  let params := addRFCTime "from.expiration_timestamp" req.fromExpirationTimestamp params
  let params := addRFCTime "to.expiration_timestamp" req.toExpirationTimestamp params
  let params :=
    match req.sort with
    | none => params
    | some s => addSortFields "sort" [s] params
  let params := if req.limit ≠ 0 then addInt "limit" req.limit params else params
  let params := if req.offset ≠ 0 then addInt "offset" req.offset params else params
  params

/-!  Timestamp Normalizer.  The raw epoch fields are Go `float64`s;
every finite `float64` is a rational number, so the epoch is modelled as
`ℚ`.  Go's conversion `int64(f)` discards the fractional part, i.e.
rounds toward zero (for values representable in `int64`, which covers
every realistic epoch). -/

/-- Truncation toward zero of a rational, the behaviour of Go's
`int64(float64)` narrowing (`Int.div` is Lean's round-toward-zero
division, and `q.num / q.den` in lowest terms truncates `q`). -/
def ratTrunc (q : ℚ) : Int := Int.tdiv q.num q.den

/-- Flooring of a rational (`Int.fdiv` is floor division).  This is the
spec's claimed rounding mode, stated separately so it can be compared
with `ratTrunc`. -/
def ratFloor (q : ℚ) : Int := Int.fdiv q.num q.den

/-- `time.Unix(sec, 0)`: the instant `sec` seconds after the Unix epoch. -/
def timeUnix (sec : Int) : GoTime := ⟨sec, 0⟩

/-- What each `convertDates` does per field pair:
`time.Unix(int64(epoch), 0)`. -/
def epochToTime (epoch : ℚ) : GoTime := timeUnix (ratTrunc epoch)

/-- `Resource` (intel.go), restricted to its epoch/date field pairs (the
string/slice payload fields play no role in date conversion). -/
structure Resource where
  createdEpoch       : ℚ := 0
  createdDate        : GoTime := GoTime.zero
  lastModifiedEpoch  : ℚ := 0
  lastModifiedDate   : GoTime := GoTime.zero
  firstActivityEpoch : ℚ := 0
  firstActivityDate  : GoTime := GoTime.zero
  lastActivityEpoch  : ℚ := 0
  lastActivityDate   : GoTime := GoTime.zero
  deriving DecidableEq, Repr

/-- `Resource.convertDates` (intel.go 109-114): derives Created,
LastActivity (assigned twice in the source) and FirstActivity; the
LastModified pair is never derived. -/
def Resource.convertDates (r : Resource) : Resource :=
  { r with
    createdDate := epochToTime r.createdEpoch
    lastActivityDate := epochToTime r.lastActivityEpoch
    firstActivityDate := epochToTime r.firstActivityEpoch }

/-- `Relation` (intel.go), epoch/date pairs only. -/
structure Relation where
  createdDateEpoch   : ℚ := 0
  createdDate        : GoTime := GoTime.zero
  lastValidDateEpoch : ℚ := 0
  lastValidDate      : GoTime := GoTime.zero
  deriving DecidableEq, Repr

/-- `Relation.convertDates` (intel.go 149-152). -/
def Relation.convertDates (r : Relation) : Relation :=
  { r with
    createdDate := epochToTime r.createdDateEpoch
    lastValidDate := epochToTime r.lastValidDateEpoch }

/-- `Label` (intel.go), epoch/date pairs only. -/
structure Label where
  createdOnEpoch   : ℚ := 0
  createdOn        : GoTime := GoTime.zero
  lastValidOnEpoch : ℚ := 0
  lastValidOn      : GoTime := GoTime.zero
  deriving DecidableEq, Repr

/-- `Label.convertDates` (intel.go 163-166). -/
def Label.convertDates (l : Label) : Label :=
  { l with
    createdOn := epochToTime l.createdOnEpoch
    lastValidOn := epochToTime l.lastValidOnEpoch }

/-- `IndicatorResponse` (intel.go), epoch/date pairs and the nested
relation/label lists. -/
structure IndicatorResponse where
  lastUpdatedEpoch   : ℚ := 0
  lastUpdated        : GoTime := GoTime.zero
  publishedDateEpoch : ℚ := 0
  publishedDate      : GoTime := GoTime.zero
  relations          : List Relation := []
  labels             : List Label := []
  deriving DecidableEq, Repr

/-- `IndicatorResponse.convertDates` (intel.go 187-196): derives its own
two pairs and converts every nested relation and label in place. -/
def IndicatorResponse.convertDates (ir : IndicatorResponse) : IndicatorResponse :=
  { ir with
    lastUpdated := epochToTime ir.lastUpdatedEpoch
    publishedDate := epochToTime ir.publishedDateEpoch
    relations := ir.relations.map Relation.convertDates
    labels := ir.labels.map Label.convertDates }

/-!  Transport client: errors, response classification and the `do`
pipeline (common.go 174-243; cs.go carries a near-identical copy). -/

/-- The library's `Error` struct (`Code`/`Message` in common.go, the
same shape as `ID`/`Details` in the older cs.go copy). -/
structure GoError where
  code    : String
  message : String
  deriving DecidableEq, Repr

/-- `ErrMissingCredentials` (common.go). -/
def ErrMissingCredentials : GoError :=
  ⟨"missing_credentials", "You must provide the CrowsStrike API ID and key"⟩

/-- `ErrMissingParams` (common.go). -/
def ErrMissingParams : GoError :=
  ⟨"missing_parameters", "You must provide the CrowsStrike API required parameters for the request"⟩

/-- Go's `http.StatusText`: the textual reason for a status code, `""`
for unknown codes (table from the `net/http` package the source calls). -/
def statusText (code : Nat) : String :=
  match code with
  | 100 => "Continue" | 101 => "Switching Protocols" | 102 => "Processing"
  | 103 => "Early Hints"
  | 200 => "OK" | 201 => "Created" | 202 => "Accepted"
  | 203 => "Non-Authoritative Information" | 204 => "No Content"
  | 205 => "Reset Content" | 206 => "Partial Content" | 207 => "Multi-Status"
  | 208 => "Already Reported" | 226 => "IM Used"
  | 300 => "Multiple Choices" | 301 => "Moved Permanently" | 302 => "Found"
  | 303 => "See Other" | 304 => "Not Modified" | 305 => "Use Proxy"
  | 307 => "Temporary Redirect" | 308 => "Permanent Redirect"
  | 400 => "Bad Request" | 401 => "Unauthorized" | 402 => "Payment Required"
  | 403 => "Forbidden" | 404 => "Not Found" | 405 => "Method Not Allowed"
  | 406 => "Not Acceptable" | 407 => "Proxy Authentication Required"
  | 408 => "Request Timeout" | 409 => "Conflict" | 410 => "Gone"
  | 411 => "Length Required" | 412 => "Precondition Failed"
  | 413 => "Request Entity Too Large" | 414 => "Request URI Too Long"
  | 415 => "Unsupported Media Type" | 416 => "Requested Range Not Satisfiable"
  | 417 => "Expectation Failed" | 418 => "I\x27m a teapot"
  | 421 => "Misdirected Request" | 422 => "Unprocessable Entity"
  | 423 => "Locked" | 424 => "Failed Dependency" | 425 => "Too Early"
  | 426 => "Upgrade Required" | 428 => "Precondition Required"
  | 429 => "Too Many Requests" | 431 => "Request Header Fields Too Large"
  | 451 => "Unavailable For Legal Reasons"
  | 500 => "Internal Server Error" | 501 => "Not Implemented"
  | 502 => "Bad Gateway" | 503 => "Service Unavailable"
  | 504 => "Gateway Timeout" | 505 => "HTTP Version Not Supported"
  | 506 => "Variant Also Negotiates" | 507 => "Insufficient Storage"
  | 508 => "Loop Detected" | 510 => "Not Extended"
  | 511 => "Network Authentication Required"
  | _ => ""

/-- The message `handleError` formats with
`fmt.Sprintf("Unexpected status code: %d (%s)", ...)`. -/
def httpErrorMessage (status : Nat) : String :=
  "Unexpected status code: " ++ toString status ++ " (" ++ statusText status ++ ")"

/-- `handleError` (common.go 174-187): statuses outside [200,299] yield
the `http_error` error value, everything else yields no error.  (The
optional dump of the failing response to the error log is diagnostic
only and does not affect the returned value.) -/
def handleError (status : Nat) : Option GoError :=
  if status < 200 ∨ 300 ≤ status then some ⟨"http_error", httpErrorMessage status⟩
  else none

/-- An HTTP response as `do` sees it after the transport returns: the
status code and the body bytes (`net/http` always supplies a non-nil
body, so the `resp.Body != nil` guard before the deferred `Close` is
always taken). -/
structure HttpResponse where
  status : Nat
  body   : String
  deriving DecidableEq, Repr

/-- The `result interface{}` argument of `do`: absent (`nil`), an
`io.Writer` byte sink, or a typed JSON-decode target. -/
inductive DoTarget (α : Type) where
  | sink
  | typed (dec : String → Except String α)
  | absent

/-- The errors `do` can return once a response has been received: the
`*Error` produced by `handleError`, or the Go error surfaced by
`json.Decoder.Decode`.  (An in-memory byte sink's `io.Copy` cannot
fail, so the writer path is error-free.) -/
inductive DoError where
  | httpError (e : GoError)
  | decodeError (msg : String)
  deriving DecidableEq, Repr

/-- Observable outcome of running `do` on a received response. -/
structure DoOutcome (α : Type) where
  result     : Except DoError (Option α)
  written    : String := ""
  bodyCloses : Nat := 0

/-- The response-handling tail of `client.do` (common.go 192-243),
starting where the transport has delivered `resp`: register the single
deferred `Body.Close`, classify the status, then either copy the raw
body into an `io.Writer` target, JSON-decode into a typed target, or do
nothing for a `nil` target. -/
def doRun (resp : HttpResponse) (target : DoTarget α) : DoOutcome α :=
  match handleError resp.status with
  | some e => { result := .error (.httpError e), bodyCloses := 1 }
  | none =>
    match target with
    | .absent => { result := .ok none, bodyCloses := 1 }
    | .sink => { result := .ok none, written := resp.body, bodyCloses := 1 }
    | .typed dec =>
      match dec resp.body with
      | .ok a => { result := .ok (some a), bodyCloses := 1 }
      | .error m => { result := .error (.decodeError m), bodyCloses := 1 }

/-!  Endpoint guard for indicator search (intel.go 276-299).  The
transport is abstracted as a function from path and parameters to a
`do` outcome, so the model can count invocations. -/

/-- Errors an indicator-search call can return: the guard's
`ErrMissingParams`, or whatever `client.do` failed with. -/
inductive IntelCallError where
  | missingParams
  | doFailed (e : DoError)
  deriving DecidableEq, Repr

/-- `Intel.Indicators` (intel.go 276-289): guard on
Parameter/Filter/Value, encode, call `do` once, convert dates on each
decoded indicator.  Returns the result paired with the number of
transport invocations. -/
def intelIndicators (req : IndicatorRequest)
    (transport : String → Params → Except DoError (List IndicatorResponse)) :
    Except IntelCallError (List IndicatorResponse) × Nat :=
  if req.parameter = "" ∨ req.filter = "" ∨ req.value = "" then
    (.error .missingParams, 0)
  else
    let params := (indicatorRequestToParams req).1
    match transport ("indicator/v1/search/" ++ req.parameter) params with
    | .ok resp => (.ok (resp.map IndicatorResponse.convertDates), 1)
    | .error e => (.error (.doFailed e), 1)

/-- `Intel.IndicatorsJSON` (intel.go 292-299): same guard, raw bytes
written to the caller's writer, no date conversion. -/
def intelIndicatorsJSON (req : IndicatorRequest)
    (transport : String → Params → Except DoError String) :
    Except IntelCallError String × Nat :=
  if req.parameter = "" ∨ req.filter = "" ∨ req.value = "" then
    (.error .missingParams, 0)
  else
    let params := (indicatorRequestToParams req).1
    match transport ("indicator/v1/search/" ++ req.parameter) params with
    | .ok bytes => (.ok bytes, 1)
    | .error e => (.error (.doFailed e), 1)

/-!  Client construction (common.go 61-149, intel.go 51-58, cs.go
90-110 and 593-601). -/

/-- The configuration state an `OptionFunc` mutates.  The HTTP client
and logger handles are opaque to every claim; the logger presence flags
stand in for the `*log.Logger` fields. -/
structure ClientCfg where
  id          : String := ""
  key         : String := ""
  url         : String := ""
  hasErrorLog : Bool := false
  hasTraceLog : Bool := false
  deriving DecidableEq, Repr

/-- `OptionFunc`: a configuration option is an arbitrary fallible
mutation of the draft configuration. -/
def OptionF : Type := ClientCfg → Except GoError ClientCfg

/-- The option loop of `newClient`/`New`: apply options left to right,
aborting on the first error. -/
def applyOptions (c : ClientCfg) (opts : List OptionF) : Except GoError ClientCfg :=
  match opts with
  | [] => .ok c
  | o :: rest =>
    match o c with
    | .error e => .error e
    | .ok c' => applyOptions c' rest

/-- `newClient` (common.go 61-80): run all options on a blank draft,
then fail with `ErrMissingCredentials` when id or key is still empty. -/
def newClient (opts : List OptionF) : Except GoError ClientCfg :=
  match applyOptions {} opts with
  | .error e => .error e
  | .ok c => if c.id = "" ∨ c.key = "" then .error ErrMissingCredentials else .ok c

/-- `SetCredentials` (common.go 86-95). -/
def setCredentials (id key : String) : OptionF := fun c =>
  if id = "" ∨ key = "" then .error ErrMissingCredentials
  else .ok { c with id := id, key := key }

/-- ASCII lower-casing, what `strings.ToLower` does to a URL scheme. -/
def lowerChar (c : Char) : Char :=
  if 'A' ≤ c ∧ c ≤ 'Z' then Char.ofNat (c.toNat + 32) else c

/-- `strings.ToLower` restricted to ASCII (URL schemes are ASCII). -/
def toLowerStr (s : String) : String := String.mk (s.data.map lowerChar)

/-- Character classes of `net/url.getScheme`. -/
def isSchemeAlpha (c : Char) : Bool :=
  ('a' ≤ c && c ≤ 'z') || ('A' ≤ c && c ≤ 'Z')

/-- Digits and `+ - .` may appear in a scheme after the first character. -/
def isSchemeTail (c : Char) : Bool :=
  ('0' ≤ c && c ≤ '9') || c == '+' || c == '-' || c == '.'

/-- The scan loop of `net/url.getScheme`: `acc` holds the characters
before the current position (empty exactly at index 0).  Returns the
scheme found before a `:`, `""` when the URL has no scheme, or the
`missing protocol scheme` error for a leading `:`. -/
def getSchemeAux (acc : List Char) : List Char → Except String String
  | [] => .ok ""
  | c :: rest =>
    if isSchemeAlpha c then getSchemeAux (acc ++ [c]) rest
    else if isSchemeTail c then
      if acc = [] then .ok "" else getSchemeAux (acc ++ [c]) rest
    else if c == ':' then
      if acc = [] then .error "missing protocol scheme" else .ok (String.mk acc)
    else .ok ""

/-- Scheme extraction of `net/url.Parse` (the only part of URL parsing
the `SetURL` option inspects; the claims evaluate `SetURL` on the two
default URLs and `""`, where the remainder of `url.Parse` succeeds). -/
def getScheme (s : String) : Except String String := getSchemeAux [] s.data

/-- `strings.HasSuffix(s, "/")`: whether the last character is `/`
(stated on the character list so it computes definitionally). -/
def hasSlashSuffix (s : String) : Bool := s.data.getLast? = some '/'

/-- `SetURL` (common.go 111-132): an empty string falls back to
`DefaultURL` (the intelligence-family URL, in both the split and the
combined source), the scheme must be `http` or `https`, and the stored
URL is normalized to end with `/`. -/
def setURL (rawurl : String) : OptionF := fun c =>
  let r := if rawurl = "" then DefaultURL else rawurl
  match getScheme r with
  | .error m => .error ⟨"url_parse_error", m⟩
  | .ok scheme =>
    if toLowerStr scheme ≠ "http" ∧ toLowerStr scheme ≠ "https" then
      .error ⟨"bad_url", "Invalid schema specified [" ++ r ++ "]"⟩
    else .ok { c with url := if hasSlashSuffix r then r else r ++ "/" }

/-- `SetErrorLog` (common.go 135-140). -/
def setErrorLog (present : Bool) : OptionF := fun c =>
  .ok { c with hasErrorLog := present }

/-- `NewIntel` (intel.go 51-58): prepend `SetURL(DefaultURL)` to the
caller's options and run `newClient`. -/
def NewIntel (opts : List OptionF) : Except GoError ClientCfg :=
  newClient (setURL DefaultURL :: opts)

/-- `NewHost` (cs.go 593-601): prepend `SetURL(DefaultURLHost)` to the
caller's options and run `newClient`. -/
def NewHost (opts : List OptionF) : Except GoError ClientCfg :=
  newClient (setURL DefaultURLHost :: opts)

/-- `New` (cs.go 90-110, the older combined client): the draft starts
with `url` already set to `DefaultURL`, then the same option loop and
final credential check as `newClient`. -/
def NewCombined (opts : List OptionF) : Except GoError ClientCfg :=
  match applyOptions { url := DefaultURL } opts with
  | .error e => .error e
  | .ok c => if c.id = "" ∨ c.key = "" then .error ErrMissingCredentials else .ok c

/-- A concrete indicator request with a descending sort spec. -/
def descSortReq : IndicatorRequest :=
  { parameter := "domain", filter := "f", value := "v", sort := some ⟨"x", false⟩ }

/-- A concrete indicator request with an ascending sort spec. -/
def ascSortReq : IndicatorRequest :=
  { parameter := "domain", filter := "f", value := "v", sort := some ⟨"a", true⟩ }

/-!  Sanity checks of the embedding on concrete values. -/

example : GoTime.formatRFC3339 GoTime.zero = "0001-01-01T00:00:00Z" := by decide
example : GoTime.formatRFC3339 ⟨0, 0⟩ = "1970-01-01T00:00:00Z" := by decide
example : GoTime.formatRFC3339 ⟨1700000000, 0⟩ = "2023-11-14T22:13:20Z" := by decide
example : ratTrunc (mkRat 3 2) = 1 := by decide
example : ratTrunc (mkRat (-3) 2) = -1 := by decide
example : ratFloor (mkRat (-3) 2) = -2 := by decide

/-!  Helper lemmas: how each `add*` helper changes the multi-map at the
touched key and at every other key. -/

theorem Params.add_apply_self (p : Params) (key v : String) :
    p.add key v key = p key ++ [v] := by
  simp [Params.add]

theorem Params.add_apply_ne (p : Params) (key v k : String) (h : k ≠ key) :
    p.add key v k = p k := by
  simp [Params.add, h]

theorem addString_apply_self (name val : String) (p : Params) :
    addString name val p name = p name ++ (if val = "" then [] else [val]) := by
  unfold addString Params.add
  by_cases h : val = "" <;> simp [h]

theorem addString_apply_ne (name val k : String) (p : Params) (h : k ≠ name) :
    addString name val p k = p k := by
  unfold addString Params.add
  by_cases hv : val = "" <;> simp [hv, h]

theorem addStringArr_apply_self (name : String) (l : List String) (p : Params) :
    addStringArr name l p name = p name ++ l.filter (fun v => v ≠ "") := by
  induction l generalizing p with
  | nil => simp [addStringArr]
  | cons v rest ih =>
    rw [addStringArr, ih, addString_apply_self]
    by_cases h : v = "" <;> simp [h, List.filter]

theorem addStringArr_apply_ne (name : String) (l : List String) (k : String) (p : Params)
    (h : k ≠ name) : addStringArr name l p k = p k := by
  induction l generalizing p with
  | nil => rfl
  | cons v rest ih => rw [addStringArr, ih, addString_apply_ne _ _ _ _ h]

theorem encodeSortField_ne_empty (s : SortField) : encodeSortField s ≠ "" := by
  intro h
  have := congrArg String.data h
  simp [encodeSortField, String.data_append] at this

theorem addSortFields_apply_self (name : String) (l : List SortField) (p : Params) :
    addSortFields name l p name = p name ++ l.map encodeSortField := by
  induction l generalizing p with
  | nil => simp [addSortFields]
  | cons s rest ih =>
    rw [addSortFields, ih, addString_apply_self]
    simp [encodeSortField_ne_empty s]

theorem addSortFields_apply_ne (name : String) (l : List SortField) (k : String) (p : Params)
    (h : k ≠ name) : addSortFields name l p k = p k := by
  induction l generalizing p with
  | nil => rfl
  | cons s rest ih => rw [addSortFields, ih, addString_apply_ne _ _ _ _ h]

theorem addTime_apply_ne (name : String) (t : Option GoTime) (k : String) (p : Params)
    (h : k ≠ name) : addTime name t p k = p k := by
  cases t with
  | none => rfl
  | some t =>
    unfold addTime
    by_cases hz : t.isZero <;> simp [hz, Params.add_apply_ne _ _ _ _ h]

theorem addRFCTime_apply_ne (name : String) (t : Option GoTime) (k : String) (p : Params)
    (h : k ≠ name) : addRFCTime name t p k = p k := by
  cases t with
  | none => rfl
  | some t => exact Params.add_apply_ne _ _ _ _ h

/-!  `strconv.Itoa` never yields the empty string, so `addInt` always
adds its key; that needs nonemptiness of Lean's decimal rendering. -/

theorem toDigitsCore_length_mono (b : Nat) (f : Nat) :
    ∀ (n : Nat) (acc : List Char), acc.length ≤ (Nat.toDigitsCore b f n acc).length := by
  induction f with
  | zero => intro n acc; simp [Nat.toDigitsCore]
  | succ f ih =>
    intro n acc
    unfold Nat.toDigitsCore
    by_cases h : n / b = 0
    · simp [h]
    · simp only [h, if_false]
      exact le_trans (by simp) (ih (n / b) (Nat.digitChar (n % b) :: acc))

theorem toDigitsCore_length_pos (b f n : Nat) (acc : List Char) (hf : f ≠ 0) :
    acc.length + 1 ≤ (Nat.toDigitsCore b f n acc).length := by
  cases f with
  | zero => exact absurd rfl hf
  | succ f =>
    unfold Nat.toDigitsCore
    by_cases h : n / b = 0
    · simp [h]
    · simp only [h, if_false]
      exact le_trans (by simp)
        (toDigitsCore_length_mono b f (n / b) (Nat.digitChar (n % b) :: acc))

theorem natRepr_ne_empty (n : Nat) : Nat.repr n ≠ "" := by
  intro h
  have : 1 ≤ (Nat.repr n).length := by
    simp only [Nat.repr, Nat.toDigits, String.length, List.asString]
    simpa using toDigitsCore_length_pos 10 (n + 1) n [] (Nat.succ_ne_zero n)
  rw [h] at this
  simp at this

theorem intToString_ne_empty (i : Int) : toString i ≠ "" := by
  cases i with
  | ofNat n => exact natRepr_ne_empty n
  | negSucc n =>
    intro h
    rw [show toString (Int.negSucc n) = "-" ++ Nat.repr (n + 1) from rfl] at h
    have := congrArg String.data h
    simp [String.data_append] at this

theorem addInt_apply_self (name : String) (val : Int) (p : Params) :
    addInt name val p name = p name ++ [toString val] := by
  rw [addInt, addString_apply_self]
  simp [intToString_ne_empty val]

theorem addInt_apply_ne (name : String) (val : Int) (k : String) (p : Params)
    (h : k ≠ name) : addInt name val p k = p k :=
  addString_apply_ne _ _ _ _ h

/-!  Arithmetic facts relating Go's `int64(float64)` narrowing
(truncation toward zero) to flooring. -/

theorem ratFloor_eq_floor (q : ℚ) : ratFloor q = ⌊q⌋ := by
  rw [Rat.floor_def, ratFloor, Int.fdiv_eq_ediv]
  exact_mod_cast q.den.zero_le

theorem ratTrunc_of_nonneg (q : ℚ) (h : 0 ≤ q) : ratTrunc q = ratFloor q := by
  have hnum : 0 ≤ q.num := Rat.num_nonneg.mpr h
  have hden : (0 : Int) ≤ q.den := by exact_mod_cast q.den.zero_le
  rw [ratTrunc, ratFloor, Int.tdiv_eq_ediv hnum hden, Int.fdiv_eq_ediv _ hden]

theorem ratTrunc_toward_zero (q : ℚ) :
    ratTrunc q = if 0 ≤ q then ratFloor q else -(ratFloor (-q)) := by
  by_cases h : 0 ≤ q
  · simp [h, ratTrunc_of_nonneg q h]
  · have hq : q < 0 := lt_of_not_ge h
    have hnum : q.num < 0 := Rat.num_neg.mpr hq
    have hden : (0 : Int) ≤ q.den := by exact_mod_cast q.den.zero_le
    simp only [h, if_false]
    rw [ratTrunc, ratFloor, Rat.neg_num, Rat.neg_den]
    rw [show q.num = -(-q.num) by ring, Int.neg_tdiv]
    rw [Int.fdiv_eq_tdiv (by omega) hden]
    ring_nf

/-!  Evaluation of the request encoders at individual keys. -/

theorem actorParams_motivations (req : ActorRequest) :
    (actorRequestToParams req).1 "motivations" =
      req.motivations.filter (fun v => v ≠ "") ++ req.motivations.filter (fun v => v ≠ "") := by
  unfold actorRequestToParams
  by_cases h1 : req.limit = 0 <;> by_cases h2 : req.fields = [] <;>
    simp +decide [h1, h2, addInt_apply_ne, addSortFields_apply_ne, addStringArr_apply_ne,
      addStringArr_apply_self, addTime_apply_ne, addString_apply_ne, Params.empty]

theorem actorParams_limit (req : ActorRequest) :
    (actorRequestToParams req).1 "limit" =
      [toString (if req.limit = 0 then (10 : Int) else req.limit)] ∧
    (actorRequestToParams req).2.limit = (if req.limit = 0 then 10 else req.limit) := by
  unfold actorRequestToParams
  by_cases h1 : req.limit = 0 <;> by_cases h2 : req.fields = [] <;>
    simp +decide [h1, h2, addInt_apply_self, addInt_apply_ne, addSortFields_apply_ne,
      addStringArr_apply_ne, addTime_apply_ne, addString_apply_ne, Params.empty]

theorem actorParams_offset (req : ActorRequest) :
    (actorRequestToParams req).1 "offset" = [toString req.offset] ∧
    (actorRequestToParams req).2.offset = req.offset := by
  unfold actorRequestToParams
  by_cases h1 : req.limit = 0 <;> by_cases h2 : req.fields = [] <;>
    simp +decide [h1, h2, addInt_apply_self, addInt_apply_ne, addSortFields_apply_ne,
      addStringArr_apply_ne, addTime_apply_ne, addString_apply_ne, Params.empty]

theorem actorParams_fields_default (req : ActorRequest) (h : req.fields = []) :
    (actorRequestToParams req).1 "fields" = [BasicFields] ∧
    (actorRequestToParams req).2.fields = [BasicFields] := by
  unfold actorRequestToParams
  by_cases h1 : req.limit = 0 <;>
    simp +decide [h1, h, addInt_apply_ne, addSortFields_apply_ne, addStringArr_apply_ne,
      addStringArr_apply_self, addTime_apply_ne, addString_apply_ne, Params.empty, BasicFields]

theorem indicatorParams_page (req : IndicatorRequest) (hf : req.filter ≠ "page") :
    (indicatorRequestToParams req).1 "page" =
      [toString (if req.page = 0 then (1 : Int) else req.page)] ∧
    (indicatorRequestToParams req).2.page = (if req.page = 0 then 1 else req.page) := by
  unfold indicatorRequestToParams
  have hf' : "page" ≠ req.filter := fun h => hf h.symm
  cases hs : req.sort <;>
    by_cases h1 : req.page = 0 <;> by_cases h2 : req.perPage = 0 <;>
      simp +decide [h1, h2, Params.add_apply_self, Params.add_apply_ne, hf']

theorem indicatorParams_perPage (req : IndicatorRequest) (hf : req.filter ≠ "perPage") :
    (indicatorRequestToParams req).1 "perPage" =
      [toString (if req.perPage = 0 then (10 : Int) else req.perPage)] ∧
    (indicatorRequestToParams req).2.perPage = (if req.perPage = 0 then 10 else req.perPage) := by
  unfold indicatorRequestToParams
  have hf' : "perPage" ≠ req.filter := fun h => hf h.symm
  cases hs : req.sort <;>
    by_cases h1 : req.page = 0 <;> by_cases h2 : req.perPage = 0 <;>
      simp +decide [h1, h2, Params.add_apply_self, Params.add_apply_ne, hf']

theorem indicatorParams_sort (req : IndicatorRequest) (s : SortField)
    (hs : req.sort = some s) (hf1 : req.filter ≠ "sort") (hf2 : req.filter ≠ "order") :
    (indicatorRequestToParams req).1 "sort" = [s.name] ∧
    (indicatorRequestToParams req).1 "order" = [if s.ascending then "asc" else "desc"] := by
  unfold indicatorRequestToParams
  have hf1' : "sort" ≠ req.filter := fun h => hf1 h.symm
  have hf2' : "order" ≠ req.filter := fun h => hf2 h.symm
  by_cases h1 : req.page = 0 <;> by_cases h2 : req.perPage = 0 <;>
    simp +decide [hs, h1, h2, Params.add_apply_self, Params.add_apply_ne, hf1', hf2']

theorem searchParams_offset (req : SearchIOCsRequest) :
    searchRequestToParams req "offset" =
      (if req.offset = 0 then [] else [toString req.offset]) := by
  unfold searchRequestToParams
  by_cases h1 : req.offset = 0 <;> by_cases h2 : req.limit = 0 <;> cases hs : req.sort <;>
    simp +decide [h1, h2, addInt_apply_self, addInt_apply_ne, addSortFields_apply_ne,
      addStringArr_apply_ne, addRFCTime_apply_ne, Params.empty]

theorem searchParams_limit (req : SearchIOCsRequest) :
    searchRequestToParams req "limit" =
      (if req.limit = 0 then [] else [toString req.limit]) := by
  unfold searchRequestToParams
  by_cases h1 : req.offset = 0 <;> by_cases h2 : req.limit = 0 <;> cases hs : req.sort <;>
    simp +decide [h1, h2, addInt_apply_self, addInt_apply_ne, addSortFields_apply_ne,
      addStringArr_apply_ne, addRFCTime_apply_ne, Params.empty]

/-!  Claim theorems. -/

/-- C1 counterexample: the claim says every list element contributes
exactly one entry under its key.  For an actor request with
`Motivations = ["a", ""]` the encoder emits `["a", "a"]` under the
`motivations` key (the empty element is skipped and the list is added
twice), not `["a", ""]`. -/
theorem claim_list_fields_counterexample :
    (actorRequestToParams { motivations := ["a", ""] }).1 "motivations" = ["a", "a"] ∧
    (["a", "a"] : List String) ≠ ["a", ""] := by
  constructor
  · rw [actorParams_motivations]
    decide
  · decide

/-- C1 (amended): for every list-valued field, the Parameter Encoder
appends each NON-EMPTY element individually under the field's key,
preserving source order, one entry per non-empty element; empty-string
elements and empty lists contribute nothing, and other keys are
untouched.  Exception: the actor encoder appends the `Motivations` list
twice, so each of its non-empty elements contributes two entries.
Encoding `["a","b"]` contributes the key exactly twice, `"a"` then
`"b"`. -/
theorem claim_list_fields_encoding (name : String) (l : List String) (p : Params)
    (k : String) (req : ActorRequest) (hk : k ≠ name) :
    addStringArr name l p name = p name ++ l.filter (fun v => v ≠ "") ∧
    addStringArr name [] p = p ∧
    addStringArr name l p k = p k ∧
    addStringArr name ["a", "b"] Params.empty name = ["a", "b"] ∧
    (actorRequestToParams req).1 "motivations" =
      req.motivations.filter (fun v => v ≠ "") ++
        req.motivations.filter (fun v => v ≠ "") := by
  refine ⟨addStringArr_apply_self name l p, rfl, addStringArr_apply_ne name l k p hk, ?_,
    actorParams_motivations req⟩
  rw [addStringArr_apply_self]
  simp [Params.empty]

/-- Witness for C1 at concrete inputs. -/
theorem claim_list_fields_witness :
    addStringArr "ids" ["x", ""] Params.empty "ids" =
      Params.empty "ids" ++ ["x", ""].filter (fun v => v ≠ "") ∧
    addStringArr "ids" [] Params.empty = Params.empty ∧
    addStringArr "ids" ["x", ""] Params.empty "other" = Params.empty "other" ∧
    addStringArr "ids" ["a", "b"] Params.empty "ids" = ["a", "b"] ∧
    (actorRequestToParams { motivations := ["m"] }).1 "motivations" =
      (["m"].filter fun v => v ≠ "") ++ (["m"].filter fun v => v ≠ "") :=
  claim_list_fields_encoding "ids" ["x", ""] Params.empty "other"
    { motivations := ["m"] } (by decide)

/-- C2 counterexample: the claim says every zero page/offset field is
defaulted to 1.  A zero actor request keeps `Offset = 0` and encodes it
as `"0"`, not `"1"`. -/
theorem claim_defaults_counterexample :
    (actorRequestToParams {}).1 "offset" = ["0"] ∧
    (actorRequestToParams {}).2.offset = 0 ∧
    (["0"] : List String) ≠ ["1"] := by
  refine ⟨?_, ?_, by decide⟩
  · rw [(actorParams_offset {}).1]
    decide
  · exact (actorParams_offset {}).2

/-- C2 (amended): each encoder applies its own defaults by mutating the
request before encoding: indicator requests get page 1 and per-page 10
when zero; actor requests get limit 10 when zero and the basic-fields
sentinel when the field list is empty, while a zero offset is NOT
defaulted and is encoded as `"0"`; host IOC search requests apply no
defaults at all — zero offset/limit are omitted.  The defaulted values
appear in the encoded multi-map. -/
theorem claim_defaults_before_encoding (areq : ActorRequest) (ireq : IndicatorRequest)
    (sreq : SearchIOCsRequest) (hp : ireq.filter ≠ "page") (hpp : ireq.filter ≠ "perPage") :
    ((actorRequestToParams areq).2.limit = (if areq.limit = 0 then 10 else areq.limit) ∧
      (actorRequestToParams areq).1 "limit" =
        [toString (if areq.limit = 0 then (10 : Int) else areq.limit)]) ∧
    (areq.fields = [] → (actorRequestToParams areq).2.fields = [BasicFields] ∧
      (actorRequestToParams areq).1 "fields" = [BasicFields]) ∧
    ((actorRequestToParams areq).2.offset = areq.offset ∧
      (actorRequestToParams areq).1 "offset" = [toString areq.offset]) ∧
    ((indicatorRequestToParams ireq).2.page = (if ireq.page = 0 then 1 else ireq.page) ∧
      (indicatorRequestToParams ireq).1 "page" =
        [toString (if ireq.page = 0 then (1 : Int) else ireq.page)]) ∧
    ((indicatorRequestToParams ireq).2.perPage =
        (if ireq.perPage = 0 then 10 else ireq.perPage) ∧
      (indicatorRequestToParams ireq).1 "perPage" =
        [toString (if ireq.perPage = 0 then (10 : Int) else ireq.perPage)]) ∧
    (searchRequestToParams sreq "offset" =
        (if sreq.offset = 0 then [] else [toString sreq.offset]) ∧
      searchRequestToParams sreq "limit" =
        (if sreq.limit = 0 then [] else [toString sreq.limit])) := by
  refine ⟨⟨(actorParams_limit areq).2, (actorParams_limit areq).1⟩,
    fun h => ⟨(actorParams_fields_default areq h).2, (actorParams_fields_default areq h).1⟩,
    ⟨(actorParams_offset areq).2, (actorParams_offset areq).1⟩,
    ⟨(indicatorParams_page ireq hp).2, (indicatorParams_page ireq hp).1⟩,
    ⟨(indicatorParams_perPage ireq hpp).2, (indicatorParams_perPage ireq hpp).1⟩,
    searchParams_offset sreq, searchParams_limit sreq⟩

/-- Witness for C2 at concrete zero-valued requests. -/
theorem claim_defaults_witness :
    ((actorRequestToParams {}).2.limit = (if (0 : Int) = 0 then 10 else 0) ∧
      (actorRequestToParams {}).1 "limit" =
        [toString (if (0 : Int) = 0 then (10 : Int) else 0)]) ∧
    (([] : List String) = [] → (actorRequestToParams {}).2.fields = [BasicFields] ∧
      (actorRequestToParams {}).1 "fields" = [BasicFields]) ∧
    ((actorRequestToParams {}).2.offset = 0 ∧
      (actorRequestToParams {}).1 "offset" = [toString (0 : Int)]) ∧
    ((indicatorRequestToParams { filter := "f" }).2.page = (if (0 : Int) = 0 then 1 else 0) ∧
      (indicatorRequestToParams { filter := "f" }).1 "page" =
        [toString (if (0 : Int) = 0 then (1 : Int) else 0)]) ∧
    ((indicatorRequestToParams { filter := "f" }).2.perPage =
        (if (0 : Int) = 0 then 10 else 0) ∧
      (indicatorRequestToParams { filter := "f" }).1 "perPage" =
        [toString (if (0 : Int) = 0 then (10 : Int) else 0)]) ∧
    (searchRequestToParams {} "offset" = (if (0 : Int) = 0 then [] else [toString (0 : Int)]) ∧
      searchRequestToParams {} "limit" = (if (0 : Int) = 0 then [] else [toString (0 : Int)])) :=
  claim_defaults_before_encoding {} { filter := "f" } {} (by decide) (by decide)

/-- C3 counterexample: the claim says a time field contributes a
parameter only when non-null and non-zero in both families.  The host
family's `addRFCTime` has no zero guard: a non-null zero time is
encoded as `0001-01-01T00:00:00Z`. -/
theorem claim_time_fields_counterexample :
    searchRequestToParams { fromExpirationTimestamp := some GoTime.zero }
        "from.expiration_timestamp" = ["0001-01-01T00:00:00Z"] ∧
    (["0001-01-01T00:00:00Z"] : List String) ≠ [] := by
  constructor
  · decide
  · decide

/-- C3 (amended): the intelligence family (`addTime`) includes a time
field iff it is non-null and non-zero, as decimal Unix-epoch seconds;
the host family (`addRFCTime`) includes it iff it is non-null — a
non-null zero time is still included — as RFC3339 text. -/
theorem claim_time_fields_encoding (name : String) (p : Params) (t : GoTime) :
    addTime name none p = p ∧
    (t.isZero = true → addTime name (some t) p = p) ∧
    (t.isZero = false → addTime name (some t) p = p.add name (toString t.unixSec)) ∧
    addRFCTime name none p = p ∧
    addRFCTime name (some t) p = p.add name t.formatRFC3339 := by
  refine ⟨rfl, fun h => ?_, fun h => ?_, rfl, rfl⟩
  · simp [addTime, h]
  · simp [addTime, h]

/-- Witness for C3: a zero and a non-zero time on the intel encoder. -/
theorem claim_time_fields_witness :
    addTime "d" (some GoTime.zero) Params.empty = Params.empty ∧
    addTime "d" (some ⟨5, 0⟩) Params.empty =
      Params.empty.add "d" (toString (5 : Int)) :=
  ⟨(claim_time_fields_encoding "d" Params.empty GoTime.zero).2.1 (by decide),
   (claim_time_fields_encoding "d" Params.empty ⟨5, 0⟩).2.2.1 (by decide)⟩

/-- C4 counterexample: the claim says every sort spec is encoded as the
single value `name.asc|desc` under the sort key.  The indicator encoder
instead emits `sort=x` and `order=desc` for `{name:"x",
ascending:false}`. -/
theorem claim_sort_fields_counterexample :
    (indicatorRequestToParams descSortReq).1 "sort" = ["x"] ∧
    (indicatorRequestToParams descSortReq).1 "order" = ["desc"] ∧
    (["x"] : List String) ≠ ["x.desc"] := by
  have h := indicatorParams_sort descSortReq ⟨"x", false⟩ rfl (by decide) (by decide)
  exact ⟨h.1, h.2, by decide⟩

/-- C4 (amended): `addSortFields` (used by the actor and host IOC search
encoders) encodes each sort field as `name + "." + ("asc"|"desc")`
under its key, preserving input order — `{name:"x", ascending:false}`
yields `"x.desc"` and `{name:"x", ascending:true}` yields `"x.asc"` —
but the indicator encoder instead emits a non-nil sort spec as two
separate parameters, `sort=<name>` and `order=<asc|desc>`. -/
theorem claim_sort_fields_encoding (name : String) (l : List SortField) (p : Params)
    (req : IndicatorRequest) (s : SortField) (hs : req.sort = some s)
    (hf1 : req.filter ≠ "sort") (hf2 : req.filter ≠ "order") :
    addSortFields name l p name = p name ++ l.map encodeSortField ∧
    encodeSortField ⟨"x", false⟩ = "x.desc" ∧
    encodeSortField ⟨"x", true⟩ = "x.asc" ∧
    (indicatorRequestToParams req).1 "sort" = [s.name] ∧
    (indicatorRequestToParams req).1 "order" = [if s.ascending then "asc" else "desc"] := by
  have h := indicatorParams_sort req s hs hf1 hf2
  exact ⟨addSortFields_apply_self name l p, by decide, by decide, h.1, h.2⟩

/-- Witness for C4 at a concrete indicator request. -/
theorem claim_sort_fields_witness :
    addSortFields "sort" [⟨"a", true⟩] Params.empty "sort" =
      Params.empty "sort" ++ [⟨"a", true⟩].map encodeSortField ∧
    encodeSortField ⟨"x", false⟩ = "x.desc" ∧
    encodeSortField ⟨"x", true⟩ = "x.asc" ∧
    (indicatorRequestToParams ascSortReq).1 "sort" = ["a"] ∧
    (indicatorRequestToParams ascSortReq).1 "order" = [if true then "asc" else "desc"] :=
  claim_sort_fields_encoding "sort" [⟨"a", true⟩] Params.empty
    ascSortReq ⟨"a", true⟩ rfl (by decide) (by decide)

/-- C5 counterexample: the claim says fractional epochs are floored for
every sign.  For the representable epoch value `-3/2` the code derives
`Unix(-1)` (truncation toward zero) while flooring would give
`Unix(-2)`. -/
theorem claim_epoch_floor_counterexample :
    (Resource.convertDates { createdEpoch := mkRat (-3) 2 }).createdDate = timeUnix (-1) ∧
    ⌊mkRat (-3) 2⌋ = -2 ∧
    timeUnix (-1) ≠ timeUnix (-2) := by
  refine ⟨by decide, ?_, by decide⟩
  rw [← ratFloor_eq_floor]
  decide

/-- C5 (amended): the Timestamp Normalizer derives each calendar field
as `Unix(trunc(epoch))`: the epoch is narrowed to an integer by
truncation TOWARD ZERO, then interpreted as seconds since
1970-01-01T00:00:00Z.  For non-negative epochs truncation coincides
with flooring; negative fractional epochs are rounded up toward zero.
`Resource.convertDates` derives the Created/FirstActivity/LastActivity
pairs and never derives LastModified; `IndicatorResponse.convertDates`
also converts every nested relation and label. -/
theorem claim_epoch_narrowing (r : Resource) (ir : IndicatorResponse) (q : ℚ)
    (hq : 0 ≤ q) :
    (r.convertDates).createdDate = timeUnix (ratTrunc r.createdEpoch) ∧
    (r.convertDates).firstActivityDate = timeUnix (ratTrunc r.firstActivityEpoch) ∧
    (r.convertDates).lastActivityDate = timeUnix (ratTrunc r.lastActivityEpoch) ∧
    (r.convertDates).lastModifiedDate = r.lastModifiedDate ∧
    (ir.convertDates).lastUpdated = timeUnix (ratTrunc ir.lastUpdatedEpoch) ∧
    (ir.convertDates).publishedDate = timeUnix (ratTrunc ir.publishedDateEpoch) ∧
    (ir.convertDates).relations = ir.relations.map Relation.convertDates ∧
    (ir.convertDates).labels = ir.labels.map Label.convertDates ∧
    ratTrunc q = ⌊q⌋ ∧
    (∀ x : ℚ, ratTrunc x = if 0 ≤ x then ⌊x⌋ else -⌊-x⌋) ∧
    (timeUnix 0).formatRFC3339 = "1970-01-01T00:00:00Z" := by
  refine ⟨rfl, rfl, rfl, rfl, rfl, rfl, rfl, rfl, ?_, fun x => ?_, by decide⟩
  · rw [ratTrunc_of_nonneg q hq, ratFloor_eq_floor]
  · rw [ratTrunc_toward_zero x, ← ratFloor_eq_floor, ← ratFloor_eq_floor]

/-- Witness for C5 at a concrete resource and epoch. -/
theorem claim_epoch_narrowing_witness :
    (0 : ℚ) ≤ mkRat 3 2 ∧
    (Resource.convertDates { createdEpoch := mkRat 3 2 }).createdDate =
      timeUnix (ratTrunc (mkRat 3 2)) ∧
    ratTrunc (mkRat 3 2) = ⌊mkRat 3 2⌋ :=
  ⟨by decide,
   (claim_epoch_narrowing { createdEpoch := mkRat 3 2 } {} (mkRat 3 2) (by decide)).1,
   (claim_epoch_narrowing { createdEpoch := mkRat 3 2 } {} (mkRat 3 2)
     (by decide)).2.2.2.2.2.2.2.2.1⟩

/-- C6 (confirmed): a response with status outside [200,299] makes `do`
return the `http_error` error carrying the numeric status and its
textual reason; a status inside [200,299] never produces an
`http_error`; and in every case the response body is closed exactly
once (the single deferred `Close`). -/
theorem claim_http_error_classification (resp : HttpResponse) (α : Type)
    (target : DoTarget α) :
    ((resp.status < 200 ∨ 300 ≤ resp.status) →
      (doRun resp target).result = .error (.httpError ⟨"http_error",
        "Unexpected status code: " ++ toString resp.status ++ " (" ++
          statusText resp.status ++ ")"⟩)) ∧
    (200 ≤ resp.status ∧ resp.status < 300 →
      ∀ e, (doRun resp target).result ≠ .error (.httpError e)) ∧
    (doRun resp target).bodyCloses = 1 := by
  refine ⟨fun h => ?_, fun h e => ?_, ?_⟩
  · unfold doRun handleError httpErrorMessage
    rw [if_pos h]
  · have hcond : ¬(resp.status < 200 ∨ 300 ≤ resp.status) := by omega
    unfold doRun handleError
    rw [if_neg hcond]
    cases target with
    | absent => simp
    | sink => simp
    | typed dec =>
      cases hdec : dec resp.body with
      | ok a => simp [hdec]
      | error m => simp [hdec]
  · unfold doRun handleError
    by_cases hcond : resp.status < 200 ∨ 300 ≤ resp.status
    · rw [if_pos hcond]
    · rw [if_neg hcond]
      cases target with
      | absent => rfl
      | sink => rfl
      | typed dec => cases hdec : dec resp.body <;> simp [hdec]

/-- Witness for C6: a simulated 404 yields the http_error with status
404 and reason "Not Found", and one body close. -/
theorem claim_http_error_witness :
    (doRun ⟨404, "nf"⟩ (DoTarget.sink : DoTarget Unit)).result =
      .error (.httpError ⟨"http_error", "Unexpected status code: 404 (Not Found)"⟩) ∧
    (doRun ⟨404, "nf"⟩ (DoTarget.sink : DoTarget Unit)).bodyCloses = 1 ∧
    (doRun ⟨200, "ok"⟩ (DoTarget.sink : DoTarget Unit)).result ≠
      .error (.httpError ⟨"http_error", "Unexpected status code: 200 (OK)"⟩) :=
  ⟨(claim_http_error_classification ⟨404, "nf"⟩ Unit DoTarget.sink).1 (by decide),
   (claim_http_error_classification ⟨404, "nf"⟩ Unit DoTarget.sink).2.2,
   (claim_http_error_classification ⟨200, "ok"⟩ Unit DoTarget.sink).2.1 (by decide) _⟩

/-- C9 (confirmed): a 2xx response with an `io.Writer` result target
copies the exact body bytes into the sink, unmodified, attempts no JSON
decoding, succeeds for any body bytes (valid JSON or not), and closes
the body once.  Since the sink receives exactly the raw bytes, no
timestamp normalization touches this path. -/
theorem claim_raw_sink_passthrough (resp : HttpResponse) (α : Type)
    (h : 200 ≤ resp.status ∧ resp.status < 300) :
    (doRun resp (DoTarget.sink : DoTarget α)).result = .ok none ∧
    (doRun resp (DoTarget.sink : DoTarget α)).written = resp.body ∧
    (doRun resp (DoTarget.sink : DoTarget α)).bodyCloses = 1 := by
  have hcond : ¬(resp.status < 200 ∨ 300 ≤ resp.status) := by omega
  unfold doRun handleError
  rw [if_neg hcond]
  exact ⟨rfl, rfl, rfl⟩

/-- Witness for C9: a 200 response whose body is not valid JSON is
still copied through verbatim. -/
theorem claim_raw_sink_witness :
    (doRun ⟨200, "not,json"⟩ (DoTarget.sink : DoTarget Unit)).result = .ok none ∧
    (doRun ⟨200, "not,json"⟩ (DoTarget.sink : DoTarget Unit)).written = "not,json" ∧
    (doRun ⟨200, "not,json"⟩ (DoTarget.sink : DoTarget Unit)).bodyCloses = 1 :=
  claim_raw_sink_passthrough ⟨200, "not,json"⟩ Unit (by decide)

/-- C7 (confirmed): an indicator-search request with an empty
Parameter, Filter or Value makes both `Indicators` and `IndicatorsJSON`
return `ErrMissingParams` without invoking the transport; when all
three are non-empty, the transport is invoked exactly once and the
missing-parameters error is never returned. -/
theorem claim_indicator_guard (req : IndicatorRequest)
    (t1 : String → Params → Except DoError (List IndicatorResponse))
    (t2 : String → Params → Except DoError String) :
    ((req.parameter = "" ∨ req.filter = "" ∨ req.value = "") →
      intelIndicators req t1 = (.error .missingParams, 0) ∧
      intelIndicatorsJSON req t2 = (.error .missingParams, 0)) ∧
    (req.parameter ≠ "" → req.filter ≠ "" → req.value ≠ "" →
      (intelIndicators req t1).2 = 1 ∧
      (intelIndicators req t1).1 ≠ .error .missingParams ∧
      (intelIndicatorsJSON req t2).2 = 1 ∧
      (intelIndicatorsJSON req t2).1 ≠ .error .missingParams) := by
  constructor
  · intro h
    refine ⟨?_, ?_⟩
    · unfold intelIndicators
      rw [if_pos h]
    · unfold intelIndicatorsJSON
      rw [if_pos h]
  · intro h1 h2 h3
    have h : ¬(req.parameter = "" ∨ req.filter = "" ∨ req.value = "") := by
      simp [h1, h2, h3]
    refine ⟨?_, ?_, ?_, ?_⟩
    · simp only [intelIndicators, if_neg h]
      cases t1 ("indicator/v1/search/" ++ req.parameter)
        (indicatorRequestToParams req).1 <;> simp
    · simp only [intelIndicators, if_neg h]
      cases t1 ("indicator/v1/search/" ++ req.parameter)
        (indicatorRequestToParams req).1 <;> simp
    · simp only [intelIndicatorsJSON, if_neg h]
      cases t2 ("indicator/v1/search/" ++ req.parameter)
        (indicatorRequestToParams req).1 <;> simp
    · simp only [intelIndicatorsJSON, if_neg h]
      cases t2 ("indicator/v1/search/" ++ req.parameter)
        (indicatorRequestToParams req).1 <;> simp

/-- Witness for C7: a request with an empty filter short-circuits with
zero transport calls; a complete request calls the transport once. -/
theorem claim_indicator_guard_witness :
    (intelIndicators { parameter := "domain" } (fun _ _ => .ok []) =
      (.error .missingParams, 0) ∧
      intelIndicatorsJSON { parameter := "domain" } (fun _ _ => .ok "") =
        (.error .missingParams, 0)) ∧
    ((intelIndicators ascSortReq (fun _ _ => .ok [])).2 = 1 ∧
      (intelIndicators ascSortReq (fun _ _ => .ok [])).1 ≠ .error .missingParams ∧
      (intelIndicatorsJSON ascSortReq (fun _ _ => .ok "")).2 = 1 ∧
      (intelIndicatorsJSON ascSortReq (fun _ _ => .ok "")).1 ≠ .error .missingParams) :=
  ⟨claim_indicator_guard { parameter := "domain" } (fun _ _ => .ok [])
      (fun _ _ => .ok "") |>.1 (by right; left; rfl),
   claim_indicator_guard ascSortReq (fun _ _ => .ok []) (fun _ _ => .ok "") |>.2
      (by decide) (by decide) (by decide)⟩

/-- C8 (confirmed): when every supplied option succeeds, each
constructor (`newClient`, `NewIntel`, `NewHost`, the combined `New`)
fails with `ErrMissingCredentials` whenever the identifier or secret is
still empty after all options ran — the check is unconditional and
last. -/
theorem claim_missing_credentials :
    (∀ opts c, applyOptions {} opts = .ok c → c.id = "" ∨ c.key = "" →
      newClient opts = .error ErrMissingCredentials) ∧
    (∀ opts c, applyOptions {} (setURL DefaultURL :: opts) = .ok c →
      c.id = "" ∨ c.key = "" → NewIntel opts = .error ErrMissingCredentials) ∧
    (∀ opts c, applyOptions {} (setURL DefaultURLHost :: opts) = .ok c →
      c.id = "" ∨ c.key = "" → NewHost opts = .error ErrMissingCredentials) ∧
    (∀ opts c, applyOptions { url := DefaultURL } opts = .ok c →
      c.id = "" ∨ c.key = "" → NewCombined opts = .error ErrMissingCredentials) := by
  refine ⟨fun opts c h hc => ?_, fun opts c h hc => ?_, fun opts c h hc => ?_,
    fun opts c h hc => ?_⟩
  · unfold newClient
    rw [h]
    exact if_pos hc
  · unfold NewIntel newClient
    rw [h]
    exact if_pos hc
  · unfold NewHost newClient
    rw [h]
    exact if_pos hc
  · unfold NewCombined
    rw [h]
    exact if_pos hc

/-- Witness for C8: constructing with only a (valid) error-log option
and no credentials fails with missing_credentials on every
constructor. -/
theorem claim_missing_credentials_witness :
    newClient [setErrorLog true] = .error ErrMissingCredentials ∧
    NewIntel [setErrorLog true] = .error ErrMissingCredentials ∧
    NewHost [setErrorLog true] = .error ErrMissingCredentials ∧
    NewCombined [setErrorLog true] = .error ErrMissingCredentials :=
  ⟨claim_missing_credentials.1 [setErrorLog true] _ rfl (Or.inl rfl),
   claim_missing_credentials.2.1 [setErrorLog true] _ rfl (Or.inl rfl),
   claim_missing_credentials.2.2.1 [setErrorLog true] _ rfl (Or.inl rfl),
   claim_missing_credentials.2.2.2 [setErrorLog true] _ rfl (Or.inl rfl)⟩

/-- C10 (confirmed, implicit claim): `SetURL("")` falls back to
`DefaultURL`, the Intel-family URL, on any client — including a client
built by `NewHost`, because each family's default is installed only as
a prepended `SetURL` option that a later caller-supplied `SetURL`
(even `SetURL("")`) overrides. -/
theorem claim_seturl_empty_default (c : ClientCfg) :
    setURL "" c = .ok { c with url := DefaultURL } ∧
    NewHost [setCredentials "id1" "key1"] =
      .ok { id := "id1", key := "key1", url := DefaultURLHost } ∧
    NewHost [setCredentials "id1" "key1", setURL ""] =
      .ok { id := "id1", key := "key1", url := DefaultURL } := by
  exact ⟨rfl, rfl, rfl⟩
